import Mathlib

/-!
Verification development for the traction tenant-ui backend.

The development shallowly embeds the two database components and the
express router of the repository:

* the PostgreSQL wallet-dashboard component (the file exporting
  `getAllItems`, `formatKind`, `countItemsByCategory`, `getItemById`,
  `getAllProfiles`, `getTableData`, `getTables`, `getTableSchema`,
  `getAllItemsFromPublicSchema` and `countItemsByKind`),
* the MySQL component `components/database.ts` (`getAllItems`,
  `getItemById`), and
* the route handlers in `routes/router.ts`.

Database tables are embedded as Lean lists of rows; each SQL statement of
the source is embedded by its standard semantics over those lists
(`SELECT` is a map, `WHERE` a filter, `GROUP BY` a dedup of keys,
`ORDER BY` a sort, `LIMIT` a take, `encode(col, hex)` and
`encode(col, escape)` are the documented PostgreSQL byte-to-text
encodings).  Query failure is made explicit by a connectivity flag on the
embedded database state: every operation of the component returns
`Except String _` and propagates the failure, exactly as the try/catch
re-throw blocks of the source do.
-/

/-! ## Byte-to-text encodings used by the SQL of the component -/

/-- Lowercase hexadecimal digit for a value below 16, as produced by the
PostgreSQL function `encode(col, hex)`. -/
def hexDigit (n : Nat) : Char :=
  if n < 10 then Char.ofNat (48 + n) else Char.ofNat (87 + n % 16)

/-- PostgreSQL `encode(col, hex)`: every byte becomes two lowercase
hexadecimal digits. -/
def encodeHex (bytes : List Nat) : String :=
  String.mk (bytes.foldr (fun b acc => hexDigit (b % 256 / 16) :: hexDigit (b % 16) :: acc) [])

/-- Octal digit character. -/
def octalDigit (n : Nat) : Char := Char.ofNat (48 + n % 8)

/-- PostgreSQL `encode(col, escape)` on one byte: a zero byte or a byte
with the high bit set becomes a backslash followed by three octal digits,
a backslash is doubled, and every other byte is emitted literally. -/
def encodeEscapeByte (b : Nat) : List Char :=
  let c := b % 256
  if c = 0 ∨ 128 ≤ c then
    ['\\', octalDigit (c / 64), octalDigit (c / 8), octalDigit c]
  else if c = 92 then ['\\', '\\']
  else [Char.ofNat c]

/-- PostgreSQL `encode(col, escape)` on a byte string. -/
def encodeEscape (bytes : List Nat) : String :=
  String.mk (bytes.foldr (fun b acc => encodeEscapeByte b ++ acc) [])

/-! ## formatKind -/

/-- The `formatKind` helper of the dashboard component: the fixed
label table for kind codes 1 to 5 with the `Type N` fallback produced by
the template literal of the source. -/
def formatKind (kind : Int) : String :=
  if kind = 1 then "Connection"
  else if kind = 2 then "Credential"
  else if kind = 3 then "Message"
  else if kind = 4 then "Key"
  else if kind = 5 then "Proof"
  else "Type " ++ toString kind

/-! ## Table-name sanitization of getTableData -/

/-- The character class kept by the `replace` call of `getTableData`:
ASCII letters, ASCII digits and the underscore. -/
def allowedTableChar (c : Char) : Bool :=
  (65 ≤ c.toNat && c.toNat ≤ 90) || (97 ≤ c.toNat && c.toNat ≤ 122) ||
    (48 ≤ c.toNat && c.toNat ≤ 57) || c.toNat == 95

/-- The `safeTableName` computation of `getTableData`: every character
outside the allow-list is dropped silently. -/
def sanitizeTableName (s : String) : String :=
  String.mk (s.data.filter allowedTableChar)

/-- The SQL text built by `getTableData`; the limit is passed as the
query parameter and never spliced into the text. -/
def tableDataQuery (tableName : String) : String :=
  "SELECT * FROM postgres." ++ sanitizeTableName tableName ++ " LIMIT $1"

/-! ## Data model -/

/-- A raw row of the `postgres.items` table: integer id, integer kind
code, owning profile id, and the three binary columns as byte lists. -/
structure ItemRow where
  id : Int
  kind : Int
  profile_id : Int
  category : List Nat
  name : List Nat
  value : List Nat
deriving DecidableEq, Repr

/-- A row of the `postgres.profiles` table, read opaquely. -/
structure ProfileRow where
  id : Int
deriving DecidableEq, Repr

/-- A row of `information_schema.columns` as selected by
`getTableSchema`. -/
structure ColumnInfo where
  column_name : String
  data_type : String
  is_nullable : String
deriving DecidableEq, Repr

/-- A dynamically shaped row (column name paired with its rendered
value), as returned by the raw `SELECT *` queries. -/
abbrev RawRow := List (String × String)

/-- The embedded database state: a connectivity flag (false models an
unreachable or failing database, in which case every query of the pool
raises the stored message), the `postgres.items` and `postgres.profiles`
tables, the `pg_tables` names of the public schema, the
`information_schema` column data, and the row data of the tables
reachable through the `postgres.` prefix used by `getTableData`. -/
structure Db where
  connOk : Bool
  errMsg : String
  items : List ItemRow
  profiles : List ProfileRow
  publicTableNames : List String
  tableSchemas : List (String × List ColumnInfo)
  postgresTables : List (String × List RawRow)

/-! ## getAllItems (PostgreSQL component) -/

/-- The row shape produced by the SELECT of `getAllItems`: the binary
columns already rendered by `encode`. -/
structure SelectedItemRow where
  id : Int
  kind : Int
  profile_id : Int
  category_hex : String
  name_text : String
  value_text : String
deriving DecidableEq, Repr

/-- The formatted item returned by `getAllItems`. -/
structure FormattedItem where
  id : Int
  kind : String
  profile_id : Int
  category : String
  name : String
  value : String
deriving DecidableEq, Repr

/-- The JavaScript expression `s || d` for a non-null string `s`: the
empty string is the only falsy non-null string value. -/
def jsOrString (s d : String) : String := if s = "" then d else s

/-- The SELECT of `getAllItems`: id, kind, profile id and the three
encoded binary columns of every row of `postgres.items`. -/
def selectItems (items : List ItemRow) : List SelectedItemRow :=
  items.map fun i =>
    { id := i.id, kind := i.kind, profile_id := i.profile_id,
      category_hex := encodeHex i.category,
      name_text := encodeEscape i.name,
      value_text := encodeEscape i.value }

/-- The `getAllItems` export of the PostgreSQL component: the SELECT
followed by the formatting map of the source (`formatKind` on the kind,
the `[Binary data]` fallback on the two escape-rendered columns). -/
def getAllItems (items : List ItemRow) : List FormattedItem :=
  (selectItems items).map fun item =>
    { id := item.id, kind := formatKind item.kind, profile_id := item.profile_id,
      category := item.category_hex,
      name := jsOrString item.name_text "[Binary data]",
      value := jsOrString item.value_text "[Binary data]" }

/-- The `getAllItems` export of the MySQL component
(`SELECT * FROM items` with no formatting): every row, unchanged. -/
def getAllItems_mysql (items : List ItemRow) : List ItemRow := items

/-! ## countItemsByKind -/

/-- A row of the summary returned by `countItemsByKind`. -/
structure KindSummaryRow where
  kind : String
  kind_id : Int
  count : Nat
deriving DecidableEq, Repr

/-- The kind codes present in the items table, one occurrence each,
ordered ascending: the semantics of `GROUP BY kind ORDER BY kind`. -/
def distinctKinds (items : List ItemRow) : List Int :=
  List.insertionSort (· ≤ ·) ((items.map ItemRow.kind).dedup)

/-- The `countItemsByKind` export: one row per distinct kind code with
the row count of its group, the kind label formatted by `formatKind`. -/
def countItemsByKind (items : List ItemRow) : List KindSummaryRow :=
  (distinctKinds items).map fun k =>
    { kind := formatKind k, kind_id := k,
      count := (items.filter fun i => decide (i.kind = k)).length }

/-! ## countItemsByCategory -/

/-- Lexicographic order on character sequences by code point, the
embedding of the text ordering used for the `ORDER BY` on
`category_hex` (C collation). -/
def lexLe : List Char → List Char → Bool
  | [], _ => true
  | _ :: _, [] => false
  | a :: as, b :: bs =>
    if a.toNat < b.toNat then true
    else if b.toNat < a.toNat then false
    else lexLe as bs

/-- Lexicographic order on strings. -/
def strLe (s t : String) : Bool := lexLe s.data t.data

/-- A group row of the inner aggregation query of
`countItemsByCategory`. -/
structure CatGroupRow where
  category_hex : String
  name_text : String
  kind : Int
  count : Nat
  item_ids : List Int
deriving DecidableEq, Repr

/-- The grouping key of `countItemsByCategory`: the rendered category,
the rendered name and the kind code. -/
def categoryKey (i : ItemRow) : String × String × Int :=
  (encodeHex i.category, encodeEscape i.name, i.kind)

/-- One group row of the aggregation: `COUNT(*)` is the size of the
group and `array_agg(id)` collects the ids of the group. -/
def categoryGroupRow (items : List ItemRow) (t : String × String × Int) : CatGroupRow :=
  let grp := items.filter fun i => decide (categoryKey i = t)
  { category_hex := t.1, name_text := t.2.1, kind := t.2.2,
    count := grp.length, item_ids := grp.map ItemRow.id }

/-- The `ORDER BY count DESC, category_hex` relation on group rows. -/
def catRel (a b : CatGroupRow) : Prop :=
  b.count < a.count ∨ (a.count = b.count ∧ strLe a.category_hex b.category_hex = true)

instance : DecidableRel catRel := fun a b => by
  unfold catRel; infer_instance

/-- The aggregation query of `countItemsByCategory`: group the items by
the rendered (category, name, kind) key and order the groups by count
descending, then category ascending. -/
def categoryGroups (items : List ItemRow) : List CatGroupRow :=
  List.insertionSort catRel (((items.map categoryKey).dedup).map (categoryGroupRow items))

/-- Printable-ASCII test of the character class `[\x20-\x7E]` used by
the `replace` call of `countItemsByCategory`. -/
def printableChar (c : Char) : Bool := 32 ≤ c.toNat && c.toNat ≤ 126

/-- The credential-type extraction of `countItemsByCategory`, exactly as
written in the source: start from `Unknown`, and when the rendered name
is non-empty and its cleaned form (non-printable characters removed) is
non-empty, use the cleaned form. -/
def jsCredentialType (nameText : String) : String :=
  if 0 < nameText.data.length then
    let cleanedText := nameText.data.filter printableChar
    if 0 < cleanedText.length then String.mk cleanedText else "Unknown"
  else "Unknown"

/-- Modelled from the spec wording of the label rule: strip the
non-printable characters from the rendered name and fall back to the
literal string `Unknown` when the stripped result is empty.  Used to
compare the source computation `jsCredentialType` against the
specification. -/
def credLabelSpec (nameText : String) : String :=
  let cleaned := String.mk (nameText.data.filter printableChar)
  if cleaned = "" then "Unknown" else cleaned

/-- A row of the formatted result of `countItemsByCategory`. -/
structure CategorySummaryRow where
  category_hex : String
  credential_type : String
  count : Nat
  kind : String
  item_ids : List Int
deriving DecidableEq, Repr

/-- The `countItemsByCategory` export: the aggregation query followed by
the formatting map of the source. -/
def countItemsByCategory (items : List ItemRow) : List CategorySummaryRow :=
  (categoryGroups items).map fun row =>
    { category_hex := row.category_hex,
      credential_type := jsCredentialType row.name_text,
      count := row.count,
      kind := formatKind row.kind,
      item_ids := row.item_ids }

/-! ## Item lookup, profiles, table introspection -/

/-- The `getItemById` export of the MySQL component:
`SELECT * FROM items WHERE id = ?`, then `rows.length ? rows[0] : null`. -/
def getItemById_mysql (items : List ItemRow) (id : Int) : Option ItemRow :=
  (items.filter fun i => decide (i.id = id)).head?

/-- The `getItemById` export of the PostgreSQL component:
`SELECT * FROM postgres.items WHERE id = $1`, then
`result.rows.length ? result.rows[0] : null`; a query failure is
re-thrown. -/
def getItemById_pg (db : Db) (id : Int) : Except String (Option ItemRow) :=
  if db.connOk then .ok ((db.items.filter fun i => decide (i.id = id)).head?)
  else .error db.errMsg

/-- The `getAllItems` query against the embedded pool: propagates the
connection failure, otherwise formats the items. -/
def getAllItemsQ (db : Db) : Except String (List FormattedItem) :=
  if db.connOk then .ok (getAllItems db.items) else .error db.errMsg

/-- The `countItemsByKind` query against the embedded pool. -/
def countItemsByKindQ (db : Db) : Except String (List KindSummaryRow) :=
  if db.connOk then .ok (countItemsByKind db.items) else .error db.errMsg

/-- The `countItemsByCategory` query against the embedded pool. -/
def countItemsByCategoryQ (db : Db) : Except String (List CategorySummaryRow) :=
  if db.connOk then .ok (countItemsByCategory db.items) else .error db.errMsg

/-- The `getAllProfiles` export: `SELECT * FROM postgres.profiles`. -/
def getAllProfilesQ (db : Db) : Except String (List ProfileRow) :=
  if db.connOk then .ok db.profiles else .error db.errMsg

/-- Order relation used for `ORDER BY tablename`. -/
def strRel (s t : String) : Prop := strLe s t = true

instance : DecidableRel strRel := fun s t => by
  unfold strRel; infer_instance

/-- The `getTables` export: the table names of the public schema,
ordered by name. -/
def getTables (db : Db) : Except String (List String) :=
  if db.connOk then .ok (List.insertionSort strRel db.publicTableNames)
  else .error db.errMsg

/-- The `getTableSchema` export: the `information_schema.columns` rows
of the given table name (the parameterized query returns the empty set
for an unknown name). -/
def getTableSchema (db : Db) (tableName : String) : Except String (List ColumnInfo) :=
  if db.connOk then
    .ok (match db.tableSchemas.lookup tableName with
      | some cols => cols
      | none => [])
  else .error db.errMsg

/-- The `getTableData` export: sanitize the table name, select every row
of `postgres.<safeTableName>` and apply the parameterized LIMIT; a
missing relation is a query error, which the source re-throws. -/
def getTableData (db : Db) (tableName : String) (limit : Nat) : Except String (List RawRow) :=
  if db.connOk then
    match db.postgresTables.lookup (sanitizeTableName tableName) with
    | some rows => .ok (rows.take limit)
    | none => .error ("relation postgres." ++ sanitizeTableName tableName ++ " does not exist")
  else .error db.errMsg

/-! ## getAllItemsFromPublicSchema -/

/-- An entry of the placeholder lists returned by
`getAllItemsFromPublicSchema`. -/
inductive SampleEntry where
  | sample (id : Int) (name descr : String)
  | errEntry (error details : String)
deriving DecidableEq, Repr

/-- Detail of one sampled table. -/
structure TableDetail where
  name : String
  schema : List ColumnInfo
  sampleData : List RawRow
  rowCount : Nat
deriving DecidableEq, Repr

/-- The database-description aggregate built by
`getAllItemsFromPublicSchema`. -/
structure DatabaseInfo where
  database : String
  tables : List String
  tableDetails : List TableDetail
deriving DecidableEq, Repr

/-- The result of `getAllItemsFromPublicSchema`: either a placeholder
item list or the database description. -/
inductive PublicSchemaResult where
  | samples (entries : List SampleEntry)
  | info (d : DatabaseInfo)
deriving DecidableEq, Repr

/-- The two-entry sample list returned when no table exists. -/
def defaultSamples : List SampleEntry :=
  [.sample 1 "Sample Item 1" "This is a sample item",
   .sample 2 "Sample Item 2" "Another sample item"]

/-- The two-entry placeholder list substituted by the catch block of
`getAllItemsFromPublicSchema`. -/
def errorSamples (msg : String) : List SampleEntry :=
  [.errEntry "Error fetching database info" msg,
   .sample 1 "Sample Item 1" "This is a sample item"]

/-- The for-loop of `getAllItemsFromPublicSchema`: schema and a
five-row sample for each chosen table; the first query failure aborts
the loop with that error. -/
def buildTableDetails (db : Db) : List String → Except String (List TableDetail)
  | [] => .ok []
  | n :: rest =>
    match getTableSchema db n with
    | .error e => .error e
    | .ok schema =>
      match getTableData db n 5 with
      | .error e => .error e
      | .ok sampleData =>
        match buildTableDetails db rest with
        | .error e => .error e
        | .ok tail =>
          .ok ({ name := n, schema := schema, sampleData := sampleData,
                 rowCount := sampleData.length } :: tail)

/-- Environment-derived connection configuration (the `dbConfig` object
of the component and the `process.env` reads of the router). -/
structure DbEnvConfig where
  host : String
  port : String
  database : String
  user : String
  password : String

/-- The `getAllItemsFromPublicSchema` export: list the tables; with no
table return the sample list; otherwise sample the first three tables
with five rows each; any failure is caught and replaced by the two-entry
error placeholder list.  This operation never returns an error. -/
def getAllItemsFromPublicSchema (env : DbEnvConfig) (db : Db) : Except String PublicSchemaResult :=
  match getTables db with
  | .error e => .ok (.samples (errorSamples e))
  | .ok tables =>
    if tables = [] then .ok (.samples defaultSamples)
    else
      match buildTableDetails db (tables.take 3) with
      | .error e => .ok (.samples (errorSamples e))
      | .ok details =>
        .ok (.info { database := env.database, tables := tables, tableDetails := details })

/-! ## Router handlers -/

/-- The diagnostic config block of the items route error body: host,
port and database name, and nothing else. -/
structure ConfigBlock where
  host : String
  port : String
  database : String
deriving DecidableEq, Repr

/-- The error body of the items route. -/
structure ItemsErrorBody where
  error : String
  details : String
  config : ConfigBlock
deriving DecidableEq, Repr

/-- The JSON body of the items route response. -/
inductive ItemsBody where
  | items (l : List FormattedItem)
  | failure (b : ItemsErrorBody)
deriving DecidableEq, Repr

/-- An HTTP response of the items route. -/
structure ItemsResponse where
  status : Nat
  body : ItemsBody
deriving DecidableEq, Repr

/-- The `GET /items` handler: 200 with the formatted items on success;
on failure 500 with the `Database error` body and the diagnostic config
block built from the host, port and database environment values. -/
def itemsRoute (env : DbEnvConfig) (db : Db) : ItemsResponse :=
  match getAllItemsQ db with
  | .ok items => { status := 200, body := .items items }
  | .error msg =>
    { status := 500,
      body := .failure
        { error := "Database error", details := msg,
          config := { host := env.host, port := env.port, database := env.database } } }

/-- The request body of the reservation email routes. -/
structure EmailRequestBody where
  contactEmail : String
  reservationId : String
deriving DecidableEq, Repr

/-- One entry of the express-validator error array: the offending field
path and the message. -/
structure ValidationIssue where
  path : String
  msg : String
deriving DecidableEq, Repr

/-- The validation chain of `POST /email/reservationConfirmation`:
`body(contactEmail).isEmail()` then `body(reservationId).not().isEmpty()`,
collecting one error entry per violated field.  The email well-formedness
test of the validator library is a parameter. -/
def reservationConfirmationErrors (isEmail : String → Bool) (req : EmailRequestBody) :
    List ValidationIssue :=
  (if isEmail req.contactEmail then []
   else [{ path := "contactEmail", msg := "Invalid value" }]) ++
  (if req.reservationId = "" then [{ path := "reservationId", msg := "Invalid value" }]
   else [])

/-- Outcome of the reservation confirmation route: the HTTP status, the
validation error array, and whether the email collaborator was
invoked. -/
structure EmailRouteResult where
  status : Nat
  errors : List ValidationIssue
  emailSent : Bool
deriving DecidableEq, Repr

/-- The `POST /email/reservationConfirmation` handler: on a non-empty
validation error array respond 422 with the array and return without
calling the email component; otherwise send the email and respond 200. -/
def reservationConfirmationRoute (isEmail : String → Bool) (req : EmailRequestBody) :
    EmailRouteResult :=
  let errs := reservationConfirmationErrors isEmail req
  if errs = [] then { status := 200, errors := [], emailSent := true }
  else { status := 422, errors := errs, emailSent := false }

/-! ## Concrete evaluation inputs -/

/-- A small concrete items table used to evaluate the theorems. -/
def demoItems : List ItemRow :=
  [{ id := 1, kind := 2, profile_id := 1, category := [99, 114], name := [116, 101, 115, 116],
     value := [1] },
   { id := 2, kind := 1, profile_id := 1, category := [99, 111], name := [], value := [] },
   { id := 3, kind := 2, profile_id := 1, category := [99, 114], name := [116, 101, 115, 116],
     value := [2] }]

/-- A concrete environment configuration (the default values of the
component). -/
def demoEnv : DbEnvConfig :=
  { host := "localhost", port := "5432", database := "askar-wallet",
    user := "postgres", password := "postgresPass" }

/-- An unreachable database. -/
def demoDbBad : Db :=
  { connOk := false, errMsg := "connection refused", items := [], profiles := [],
    publicTableNames := [], tableSchemas := [], postgresTables := [] }

/-- A reachable database with no public-schema table. -/
def demoDbEmpty : Db :=
  { connOk := true, errMsg := "", items := demoItems, profiles := [{ id := 1 }],
    publicTableNames := [], tableSchemas := [], postgresTables := [] }

/-- A reachable database with one public-schema table. -/
def demoDbGood : Db :=
  { connOk := true, errMsg := "", items := demoItems, profiles := [{ id := 1 }],
    publicTableNames := ["items"],
    tableSchemas :=
      [("items", [{ column_name := "id", data_type := "integer", is_nullable := "NO" }])],
    postgresTables := [("items", [[("id", "1")], [("id", "2")]])] }

/-- The database description computed over `demoDbGood`. -/
def demoInfo : DatabaseInfo :=
  { database := "askar-wallet", tables := ["items"],
    tableDetails :=
      [{ name := "items",
         schema := [{ column_name := "id", data_type := "integer", is_nullable := "NO" }],
         sampleData := [[("id", "1")], [("id", "2")]], rowCount := 2 }] }

/-- A concrete well-formedness test standing in for the validator
library: accept exactly the strings holding an at sign. -/
def demoIsEmail (s : String) : Bool := s.data.contains '@'

/-- The first summary row of `countItemsByCategory` on the demo items
table. -/
def demoCategoryRow : CategorySummaryRow :=
  { category_hex := "6372", credential_type := "test", count := 2, kind := "Credential",
    item_ids := [1, 3] }

/-- A request body with a malformed contact email. -/
def demoEmailReq : EmailRequestBody :=
  { contactEmail := "not-an-email", reservationId := "res-123" }

/-! ## Helper lemmas -/

lemma lexLe_total (as : List Char) : ∀ bs, (lexLe as bs || lexLe bs as) = true := by
  induction as with
  | nil => intro bs; simp [lexLe]
  | cons a as ih =>
    intro bs
    cases bs with
    | nil => simp [lexLe]
    | cons b bs =>
      simp only [lexLe]
      rcases Nat.lt_trichotomy a.toNat b.toNat with h | h | h
      · simp [h]
      · simp only [h, Nat.lt_irrefl, if_false]
        simpa using ih bs
      · simp [h, Nat.lt_asymm h]

lemma lexLe_trans (as : List Char) :
    ∀ bs cs, lexLe as bs = true → lexLe bs cs = true → lexLe as cs = true := by
  induction as with
  | nil => intro bs cs _ _; simp [lexLe]
  | cons a as ih =>
    intro bs cs hab hbc
    cases bs with
    | nil => simp [lexLe] at hab
    | cons b bs =>
      cases cs with
      | nil => simp [lexLe] at hbc
      | cons c cs =>
        simp only [lexLe] at hab hbc ⊢
        rcases Nat.lt_trichotomy a.toNat b.toNat with h1 | h1 | h1
        · rcases Nat.lt_trichotomy b.toNat c.toNat with h2 | h2 | h2
          · simp [Nat.lt_trans h1 h2]
          · simp [h2 ▸ h1]
          · simp [h2, Nat.lt_asymm h2] at hbc
        · rcases Nat.lt_trichotomy b.toNat c.toNat with h2 | h2 | h2
          · simp [h1 ▸ h2]
          · have hac : a.toNat = c.toNat := h1.trans h2
            simp [hac, Nat.lt_irrefl] at *
            simp [h1, Nat.lt_irrefl] at hab
            simp [h2, Nat.lt_irrefl] at hbc
            exact ih bs cs hab hbc
          · simp [h2, Nat.lt_asymm h2] at hbc
        · simp [h1, Nat.lt_asymm h1] at hab

lemma strLe_total (s t : String) : (strLe s t || strLe t s) = true :=
  lexLe_total s.data t.data

lemma strLe_trans {s t u : String} (h1 : strLe s t = true) (h2 : strLe t u = true) :
    strLe s u = true :=
  lexLe_trans s.data t.data u.data h1 h2

instance : IsTotal CatGroupRow catRel := by
  constructor
  intro a b
  unfold catRel
  rcases Nat.lt_trichotomy a.count b.count with h | h | h
  · exact Or.inr (Or.inl h)
  · rcases Bool.or_eq_true_iff.mp (strLe_total a.category_hex b.category_hex) with hs | hs
    · exact Or.inl (Or.inr ⟨h, hs⟩)
    · exact Or.inr (Or.inr ⟨h.symm, hs⟩)
  · exact Or.inl (Or.inl h)

instance : IsTrans CatGroupRow catRel := by
  constructor
  intro a b c hab hbc
  unfold catRel at *
  rcases hab with h1 | ⟨h1, hs1⟩
  · rcases hbc with h2 | ⟨h2, _⟩
    · exact Or.inl (Nat.lt_trans h2 h1)
    · exact Or.inl (h2 ▸ h1)
  · rcases hbc with h2 | ⟨h2, hs2⟩
    · exact Or.inl (h1 ▸ h2)
    · exact Or.inr ⟨h1.trans h2, strLe_trans hs1 hs2⟩

lemma sum_map_add_nat {β : Type} (f g : β → Nat) (ks : List β) :
    (ks.map fun k => f k + g k).sum = (ks.map f).sum + (ks.map g).sum := by
  induction ks with
  | nil => simp
  | cons a t ih => simp [ih]; omega

lemma sum_indicator_zero (a : Int) :
    ∀ ks : List Int, a ∉ ks → (ks.map fun k => if a = k then 1 else 0).sum = 0 := by
  intro ks
  induction ks with
  | nil => intro _; simp
  | cons k t ih =>
    intro h
    have hak : a ≠ k := fun he => h (he ▸ List.mem_cons_self k t)
    have hat : a ∉ t := fun hm => h (List.mem_cons_of_mem k hm)
    simp [hak, ih hat]

lemma sum_indicator_one (a : Int) :
    ∀ ks : List Int, ks.Nodup → a ∈ ks →
      (ks.map fun k => if a = k then 1 else 0).sum = 1 := by
  intro ks
  induction ks with
  | nil => intro _ h; simp at h
  | cons k t ih =>
    intro hnd hmem
    rcases List.mem_cons.mp hmem with hak | hat
    · have hknott : k ∉ t := (List.nodup_cons.mp hnd).1
      simp [hak, sum_indicator_zero k t hknott]
    · have hak : a ≠ k := by
        intro he
        exact (List.nodup_cons.mp hnd).1 (he ▸ hat)
      simp [hak, ih (List.nodup_cons.mp hnd).2 hat]

lemma sum_filter_lengths {α : Type} (key : α → Int) (ks : List Int) :
    ∀ l : List α, ks.Nodup → (∀ x ∈ l, key x ∈ ks) →
      (ks.map fun k => (l.filter fun x => decide (key x = k)).length).sum = l.length := by
  intro l
  induction l with
  | nil => intro _ _; simp
  | cons x t ih =>
    intro hnd hcov
    have hx : key x ∈ ks := hcov x (List.mem_cons_self x t)
    have hcov' : ∀ y ∈ t, key y ∈ ks := fun y hy => hcov y (List.mem_cons_of_mem x hy)
    have hmap :
        (ks.map fun k => ((x :: t).filter fun y => decide (key y = k)).length) =
        ks.map fun k =>
          (t.filter fun y => decide (key y = k)).length + (if key x = k then 1 else 0) := by
      apply List.map_congr_left
      intro k _
      by_cases hk : key x = k
      · simp [List.filter_cons, hk]
      · simp [List.filter_cons, hk]
    rw [hmap, sum_map_add_nat, ih hnd hcov', sum_indicator_one (key x) ks hnd hx]
    simp [Nat.add_comm]

lemma head?_filter_some {α : Type} (p : α → Bool) (l : List α) (x : α)
    (hx : x ∈ l) (hpx : p x = true) :
    ∃ y, (l.filter p).head? = some y ∧ y ∈ l ∧ p y = true := by
  have hne : l.filter p ≠ [] := by
    intro h
    rw [List.filter_eq_nil_iff] at h
    exact h x hx hpx
  obtain ⟨y, ys, hy⟩ : ∃ y ys, l.filter p = y :: ys := by
    cases hfp : l.filter p with
    | nil => exact absurd hfp hne
    | cons y ys => exact ⟨y, ys, rfl⟩
  have hmem : y ∈ l.filter p := by rw [hy]; exact List.mem_cons_self _ _
  have hyl := List.mem_filter.mp hmem
  exact ⟨y, by simp [hy], hyl.1, hyl.2⟩

/-! ## Claim theorems -/

/-- Claim C1: the kind-to-label mapping is total: codes 1 through 5 map
to the five fixed labels and every other integer code maps to the string
`Type N` built from the code. -/
theorem formatKind_total_spec :
    formatKind 1 = "Connection" ∧ formatKind 2 = "Credential" ∧
    formatKind 3 = "Message" ∧ formatKind 4 = "Key" ∧ formatKind 5 = "Proof" ∧
    ∀ k : Int, k ≠ 1 → k ≠ 2 → k ≠ 3 → k ≠ 4 → k ≠ 5 →
      formatKind k = "Type " ++ toString k := by
  refine ⟨by decide, by decide, by decide, by decide, by decide, ?_⟩
  intro k h1 h2 h3 h4 h5
  simp [formatKind, h1, h2, h3, h4, h5]

/-- Witness for C1: code 42 is not one of the five mapped codes and gets
the fallback label. -/
theorem formatKind_total_spec_witness :
    formatKind 42 = "Type " ++ toString (42 : Int) :=
  formatKind_total_spec.2.2.2.2.2 42 (by decide) (by decide) (by decide) (by decide) (by decide)

/-- Claim C2: `getTableData` keeps only the characters in the class
`[A-Za-z0-9_]` of the table name, the executed query text contains
exactly the sanitized name, the injection attempt `items; DROP TABLE x`
is stripped to `itemsDROPTABLEx`, and the query built from the raw
unsanitized name is not the executed query. -/
theorem getTableData_sanitizes (s : String) :
    (sanitizeTableName s).data.all allowedTableChar = true ∧
    tableDataQuery s = "SELECT * FROM postgres." ++ sanitizeTableName s ++ " LIMIT $1" ∧
    sanitizeTableName "items; DROP TABLE x" = "itemsDROPTABLEx" ∧
    tableDataQuery "items; DROP TABLE x" ≠
      "SELECT * FROM postgres.items; DROP TABLE x LIMIT $1" := by
  refine ⟨?_, rfl, by decide, by decide⟩
  have hdata : (sanitizeTableName s).data = s.data.filter allowedTableChar := rfl
  rw [hdata, List.all_eq_true]
  exact fun c hc => (List.mem_filter.mp hc).2

/-- Witness for C2: the sanitization facts evaluated at the table name
`wallet items`. -/
theorem getTableData_sanitizes_witness :
    (sanitizeTableName "wallet items").data.all allowedTableChar = true ∧
    tableDataQuery "wallet items" =
      "SELECT * FROM postgres." ++ sanitizeTableName "wallet items" ++ " LIMIT $1" ∧
    sanitizeTableName "items; DROP TABLE x" = "itemsDROPTABLEx" ∧
    tableDataQuery "items; DROP TABLE x" ≠
      "SELECT * FROM postgres.items; DROP TABLE x LIMIT $1" :=
  getTableData_sanitizes "wallet items"

/-- Claim C3: `countItemsByKind` returns exactly one row for each kind
code present in the items table, the rows are ordered by kind code
ascending, and the counts of the rows sum to the number of rows of the
items table. -/
theorem countItemsByKind_spec (items : List ItemRow) :
    ((countItemsByKind items).map KindSummaryRow.kind_id).Nodup ∧
    (∀ k : Int, k ∈ (countItemsByKind items).map KindSummaryRow.kind_id ↔
      k ∈ items.map ItemRow.kind) ∧
    ((countItemsByKind items).map KindSummaryRow.kind_id).Pairwise (· ≤ ·) ∧
    ((countItemsByKind items).map KindSummaryRow.count).sum = items.length := by
  have hproj : (countItemsByKind items).map KindSummaryRow.kind_id = distinctKinds items := by
    unfold countItemsByKind
    rw [List.map_map]
    exact List.map_id _
  have hperm : (distinctKinds items).Perm ((items.map ItemRow.kind).dedup) :=
    List.perm_insertionSort _ _
  have hnd : (distinctKinds items).Nodup :=
    hperm.symm.nodup (List.nodup_dedup _)
  have hmem : ∀ k : Int, k ∈ distinctKinds items ↔ k ∈ items.map ItemRow.kind := by
    intro k
    rw [hperm.mem_iff, List.mem_dedup]
  refine ⟨by rw [hproj]; exact hnd, ?_, ?_, ?_⟩
  · intro k; rw [hproj]; exact hmem k
  · rw [hproj]
    exact List.sorted_insertionSort _ _
  · have hcnt : (countItemsByKind items).map KindSummaryRow.count =
        (distinctKinds items).map fun k =>
          (items.filter fun i => decide (i.kind = k)).length := by
      unfold countItemsByKind
      rw [List.map_map]
      rfl
    rw [hcnt]
    apply sum_filter_lengths ItemRow.kind (distinctKinds items) items hnd
    intro x hx
    exact (hmem x.kind).mpr (List.mem_map.mpr ⟨x, hx, rfl⟩)

/-- Witness for C3: the summary facts evaluated on the concrete demo
items table. -/
theorem countItemsByKind_spec_witness :
    ((countItemsByKind demoItems).map KindSummaryRow.kind_id).Nodup ∧
    (∀ k : Int, k ∈ (countItemsByKind demoItems).map KindSummaryRow.kind_id ↔
      k ∈ demoItems.map ItemRow.kind) ∧
    ((countItemsByKind demoItems).map KindSummaryRow.kind_id).Pairwise (· ≤ ·) ∧
    ((countItemsByKind demoItems).map KindSummaryRow.count).sum = demoItems.length :=
  countItemsByKind_spec demoItems

/-- Claim C5: `getAllItems` of the PostgreSQL component returns one
formatted row per item with no filtering, the category rendered as
hexadecimal, the name and value rendered as escaped text with the
`[Binary data]` placeholder when the rendering is empty; the MySQL
`getAllItems` returns every row unchanged. -/
theorem getAllItems_spec (items : List ItemRow) :
    (getAllItems items).length = items.length ∧
    getAllItems items = items.map (fun i =>
      { id := i.id, kind := formatKind i.kind, profile_id := i.profile_id,
        category := encodeHex i.category,
        name := if encodeEscape i.name = "" then "[Binary data]" else encodeEscape i.name,
        value := if encodeEscape i.value = "" then "[Binary data]" else encodeEscape i.value }) ∧
    getAllItems_mysql items = items := by
  refine ⟨by simp [getAllItems, selectItems], ?_, rfl⟩
  simp only [getAllItems, selectItems, List.map_map]
  rfl

/-- Witness for C5: the formatting facts evaluated on the concrete demo
items table. -/
theorem getAllItems_spec_witness :
    (getAllItems demoItems).length = demoItems.length ∧
    getAllItems demoItems = demoItems.map (fun i =>
      { id := i.id, kind := formatKind i.kind, profile_id := i.profile_id,
        category := encodeHex i.category,
        name := if encodeEscape i.name = "" then "[Binary data]" else encodeEscape i.name,
        value := if encodeEscape i.value = "" then "[Binary data]" else encodeEscape i.value }) ∧
    getAllItems_mysql demoItems = demoItems :=
  getAllItems_spec demoItems

/-- Claim C6: `getItemById` (PostgreSQL and MySQL implementations)
returns a matching row when one exists and returns the null result when
no row matches; with a reachable database the absence of a match is
never an error. -/
theorem getItemById_spec (db : Db) (id : Int) (items : List ItemRow) :
    (db.connOk = true →
      ((∃ r ∈ db.items, r.id = id) →
        ∃ r, getItemById_pg db id = .ok (some r) ∧ r ∈ db.items ∧ r.id = id) ∧
      ((∀ r ∈ db.items, r.id ≠ id) → getItemById_pg db id = .ok none)) ∧
    ((∃ r ∈ items, r.id = id) →
      ∃ r, getItemById_mysql items id = some r ∧ r ∈ items ∧ r.id = id) ∧
    ((∀ r ∈ items, r.id ≠ id) → getItemById_mysql items id = none) := by
  refine ⟨fun hok => ⟨?_, ?_⟩, ?_, ?_⟩
  · rintro ⟨r, hr, hrid⟩
    obtain ⟨y, hy, hyl, hyp⟩ :=
      head?_filter_some (fun i => decide (i.id = id)) db.items r hr (by simp [hrid])
    exact ⟨y, by simp [getItemById_pg, hok, hy], hyl, by simpa using hyp⟩
  · intro hnone
    have hfil : db.items.filter (fun i => decide (i.id = id)) = [] :=
      List.filter_eq_nil_iff.mpr (fun a ha => by simpa using hnone a ha)
    simp [getItemById_pg, hok, hfil]
  · rintro ⟨r, hr, hrid⟩
    obtain ⟨y, hy, hyl, hyp⟩ :=
      head?_filter_some (fun i => decide (i.id = id)) items r hr (by simp [hrid])
    exact ⟨y, by simp [getItemById_mysql, hy], hyl, by simpa using hyp⟩
  · intro hnone
    have hfil : items.filter (fun i => decide (i.id = id)) = [] :=
      List.filter_eq_nil_iff.mpr (fun a ha => by simpa using hnone a ha)
    simp [getItemById_mysql, hfil]

/-- Witness for C6: on the demo database, id 1 is found and id 99 is
absent without an error. -/
theorem getItemById_spec_witness :
    (∃ r, getItemById_pg demoDbGood 1 = .ok (some r) ∧ r ∈ demoDbGood.items ∧ r.id = 1) ∧
    getItemById_mysql demoItems 99 = none := by
  have h := getItemById_spec demoDbGood 1 demoItems
  have h99 := getItemById_spec demoDbGood 99 demoItems
  refine ⟨(h.1 rfl).1 ?_, h99.2.2 (by decide)⟩
  exact ⟨{ id := 1, kind := 2, profile_id := 1, category := [99, 114],
           name := [116, 101, 115, 116], value := [1] }, by decide, by decide⟩

/-- Claim C7: on a database failure the items route responds 500 with
the fixed `Database error` message and a diagnostic config block holding
exactly the host, port and database name; the response is independent of
the password and user credentials. -/
theorem itemsRoute_error_spec (env : DbEnvConfig) (db : Db) (hdb : db.connOk = false) :
    (itemsRoute env db).status = 500 ∧
    (itemsRoute env db).body = .failure
      { error := "Database error", details := db.errMsg,
        config := { host := env.host, port := env.port, database := env.database } } ∧
    (∀ p u : String,
      itemsRoute { env with password := p, user := u } db = itemsRoute env db) := by
  have h : getAllItemsQ db = .error db.errMsg := by simp [getAllItemsQ, hdb]
  refine ⟨by simp [itemsRoute, h], by simp [itemsRoute, h], ?_⟩
  intro p u
  simp [itemsRoute, h]

/-- Witness for C7: the error response of the items route against the
unreachable demo database. -/
theorem itemsRoute_error_spec_witness :
    (itemsRoute demoEnv demoDbBad).status = 500 ∧
    (itemsRoute demoEnv demoDbBad).body = .failure
      { error := "Database error", details := demoDbBad.errMsg,
        config := { host := demoEnv.host, port := demoEnv.port,
                    database := demoEnv.database } } ∧
    (∀ p u : String,
      itemsRoute { demoEnv with password := p, user := u } demoDbBad =
        itemsRoute demoEnv demoDbBad) :=
  itemsRoute_error_spec demoEnv demoDbBad rfl

/-- Claim C8: a reservation confirmation request whose contact email
fails the well-formedness test is answered 422 with an error array
naming the contactEmail field, and the email collaborator is not
invoked. -/
theorem reservationConfirmation_invalid_email_spec (isEmail : String → Bool)
    (req : EmailRequestBody) (h : isEmail req.contactEmail = false) :
    (reservationConfirmationRoute isEmail req).status = 422 ∧
    (∃ e ∈ (reservationConfirmationRoute isEmail req).errors, e.path = "contactEmail") ∧
    (reservationConfirmationRoute isEmail req).emailSent = false := by
  have herrs : reservationConfirmationErrors isEmail req =
      { path := "contactEmail", msg := "Invalid value" } ::
        (if req.reservationId = "" then [{ path := "reservationId", msg := "Invalid value" }]
         else []) := by
    simp [reservationConfirmationErrors, h]
  have hne : reservationConfirmationErrors isEmail req ≠ [] := by rw [herrs]; simp
  have hfield : (reservationConfirmationRoute isEmail req).errors =
      reservationConfirmationErrors isEmail req := by
    simp [reservationConfirmationRoute, hne]
  refine ⟨by simp [reservationConfirmationRoute, hne], ?_,
    by simp [reservationConfirmationRoute, hne]⟩
  refine ⟨{ path := "contactEmail", msg := "Invalid value" }, ?_, rfl⟩
  rw [hfield, herrs]
  exact List.mem_cons_self _ _

/-- Witness for C8: the concrete malformed request is rejected with 422
and the contactEmail error entry. -/
theorem reservationConfirmation_invalid_email_spec_witness :
    (reservationConfirmationRoute demoIsEmail demoEmailReq).status = 422 ∧
    (∃ e ∈ (reservationConfirmationRoute demoIsEmail demoEmailReq).errors,
      e.path = "contactEmail") ∧
    (reservationConfirmationRoute demoIsEmail demoEmailReq).emailSent = false :=
  reservationConfirmation_invalid_email_spec demoIsEmail demoEmailReq (by decide)

lemma string_mk_eq_empty (l : List Char) : (String.mk l = "") ↔ l = [] := by
  constructor
  · intro h
    exact congrArg String.data h
  · rintro rfl
    rfl

/-- Pointwise agreement of the source credential-type computation with
the specification label rule. -/
lemma jsCredentialType_eq_credLabelSpec (s : String) :
    jsCredentialType s = credLabelSpec s := by
  unfold jsCredentialType credLabelSpec
  by_cases h0 : s.data = []
  · simp [h0, string_mk_eq_empty]
  · have hlen : 0 < s.data.length := List.length_pos.mpr h0
    rw [if_pos hlen]
    by_cases hf : s.data.filter printableChar = []
    · simp [hf, string_mk_eq_empty]
    · have hflen : 0 < (s.data.filter printableChar).length := List.length_pos.mpr hf
      rw [if_pos hflen, if_neg]
      intro hcon
      exact hf ((string_mk_eq_empty _).mp hcon)

lemma categoryGroups_perm (items : List ItemRow) :
    (categoryGroups items).Perm
      (((items.map categoryKey).dedup).map (categoryGroupRow items)) :=
  List.perm_insertionSort _ _

lemma categoryGroups_key_map (items : List ItemRow) :
    ((((items.map categoryKey).dedup).map (categoryGroupRow items)).map
      (fun r => (r.category_hex, r.name_text, r.kind))) = (items.map categoryKey).dedup := by
  rw [List.map_map]
  exact List.map_id _

/-- Claim C4 (amended): `countItemsByCategory` returns one row per
distinct rendered (category, name, kind) triple present, ordered by
count descending then category ascending, and each credential type is
the stripped rendering of the name with the `Unknown` fallback exactly
when the stripped rendering is empty. -/
theorem countItemsByCategory_spec (items : List ItemRow) :
    countItemsByCategory items = (categoryGroups items).map (fun row =>
      { category_hex := row.category_hex,
        credential_type := credLabelSpec row.name_text,
        count := row.count,
        kind := formatKind row.kind,
        item_ids := row.item_ids }) ∧
    (∀ s : String, jsCredentialType s = credLabelSpec s) ∧
    ((categoryGroups items).map (fun r => (r.category_hex, r.name_text, r.kind))).Nodup ∧
    (∀ t : String × String × Int,
      t ∈ (categoryGroups items).map (fun r => (r.category_hex, r.name_text, r.kind)) ↔
      t ∈ items.map categoryKey) ∧
    (countItemsByCategory items).Pairwise (fun a b =>
      b.count < a.count ∨ (a.count = b.count ∧ strLe a.category_hex b.category_hex = true)) := by
  have hpm := (categoryGroups_perm items).map (fun r => (r.category_hex, r.name_text, r.kind))
  refine ⟨?_, jsCredentialType_eq_credLabelSpec, ?_, ?_, ?_⟩
  · unfold countItemsByCategory
    apply List.map_congr_left
    intro r _
    rw [jsCredentialType_eq_credLabelSpec]
  · apply hpm.symm.nodup
    rw [categoryGroups_key_map]
    exact List.nodup_dedup _
  · intro t
    rw [hpm.mem_iff, categoryGroups_key_map, List.mem_dedup]
  · have hsort : (categoryGroups items).Pairwise catRel :=
      List.sorted_insertionSort catRel _
    exact List.Pairwise.map _ (fun a b h => h) hsort

/-- Witness for C4: the amended facts evaluated on the concrete demo
items table. -/
theorem countItemsByCategory_spec_witness :
    countItemsByCategory demoItems = (categoryGroups demoItems).map (fun row =>
      { category_hex := row.category_hex,
        credential_type := credLabelSpec row.name_text,
        count := row.count,
        kind := formatKind row.kind,
        item_ids := row.item_ids }) ∧
    (∀ s : String, jsCredentialType s = credLabelSpec s) ∧
    ((categoryGroups demoItems).map (fun r => (r.category_hex, r.name_text, r.kind))).Nodup ∧
    (∀ t : String × String × Int,
      t ∈ (categoryGroups demoItems).map (fun r => (r.category_hex, r.name_text, r.kind)) ↔
      t ∈ demoItems.map categoryKey) ∧
    (countItemsByCategory demoItems).Pairwise (fun a b =>
      b.count < a.count ∨ (a.count = b.count ∧ strLe a.category_hex b.category_hex = true)) :=
  countItemsByCategory_spec demoItems

/-- Counterexample for C4 as stated: an item whose single name byte is
the non-printable zero byte is rendered by the escape encoding as a
printable four-character octal string, so the stripped result is
non-empty and the credential type is that octal string, not `Unknown`. -/
theorem countItemsByCategory_nonprintable_counterexample :
    (([0] : List Nat).all fun b => decide (b < 32 ∨ 126 < b)) = true ∧
    countItemsByCategory
      [{ id := 1, kind := 2, profile_id := 1, category := [1], name := [0], value := [] }] =
      [{ category_hex := "01", credential_type := "\\000", count := 1, kind := "Credential",
         item_ids := [1] }] ∧
    ("\\000" : String) ≠ "Unknown" :=
  ⟨by decide, by decide, by decide⟩

/-- Claim C10: in every row of `countItemsByCategory` the count equals
the length of the id list, and the id list is exactly the ids of the
items of the row group. -/
theorem countItemsByCategory_ids_spec (items : List ItemRow) :
    ∀ r ∈ countItemsByCategory items,
      r.count = r.item_ids.length ∧
      ∃ n : String, ∃ k : Int, r.kind = formatKind k ∧
        r.item_ids = (items.filter fun i =>
          decide (encodeHex i.category = r.category_hex ∧ encodeEscape i.name = n ∧
            i.kind = k)).map ItemRow.id := by
  intro r hr
  obtain ⟨g, hg, hrg⟩ := List.mem_map.mp hr
  have hg' : g ∈ (((items.map categoryKey).dedup).map (categoryGroupRow items)) :=
    (categoryGroups_perm items).mem_iff.mp hg
  obtain ⟨t, _, hgt⟩ := List.mem_map.mp hg'
  obtain ⟨c, n, k⟩ := t
  have hcat : r.category_hex = c := by rw [← hrg, ← hgt]; rfl
  have hkind : r.kind = formatKind k := by rw [← hrg, ← hgt]; rfl
  have hcount : r.count =
      (items.filter fun i => decide (categoryKey i = (c, n, k))).length := by
    rw [← hrg, ← hgt]; rfl
  have hids : r.item_ids =
      (items.filter fun i => decide (categoryKey i = (c, n, k))).map ItemRow.id := by
    rw [← hrg, ← hgt]; rfl
  constructor
  · rw [hcount, hids, List.length_map]
  · refine ⟨n, k, hkind, ?_⟩
    rw [hids, hcat]
    congr 1
    apply List.filter_congr
    intro x _
    apply decide_eq_decide.mpr
    constructor
    · intro h
      rw [show categoryKey x = (encodeHex x.category, encodeEscape x.name, x.kind) from rfl] at h
      exact ⟨congrArg Prod.fst h, congrArg Prod.fst (congrArg Prod.snd h),
        congrArg Prod.snd (congrArg Prod.snd h)⟩
    · rintro ⟨h1, h2, h3⟩
      rw [show categoryKey x = (encodeHex x.category, encodeEscape x.name, x.kind) from rfl,
        h1, h2, h3]

/-- Witness for C10: the id-list facts at the first summary row of the
demo items table. -/
theorem countItemsByCategory_ids_spec_witness :
    demoCategoryRow.count = demoCategoryRow.item_ids.length ∧
    ∃ n : String, ∃ k : Int, demoCategoryRow.kind = formatKind k ∧
      demoCategoryRow.item_ids = (demoItems.filter fun i =>
        decide (encodeHex i.category = demoCategoryRow.category_hex ∧
          encodeEscape i.name = n ∧ i.kind = k)).map ItemRow.id :=
  countItemsByCategory_ids_spec demoItems demoCategoryRow (by decide)

lemma getTableData_length_le (db : Db) (n : String) (limit : Nat) (rows : List RawRow)
    (h : getTableData db n limit = .ok rows) : rows.length ≤ limit := by
  unfold getTableData at h
  by_cases hc : db.connOk = true
  · rw [if_pos hc] at h
    cases hl : db.postgresTables.lookup (sanitizeTableName n) with
    | none => rw [hl] at h; simp at h
    | some rs =>
      rw [hl] at h
      simp only [Except.ok.injEq] at h
      rw [← h, List.length_take]
      exact min_le_left _ _
  · rw [if_neg hc] at h
    simp at h

lemma buildTableDetails_ok (db : Db) :
    ∀ names ds, buildTableDetails db names = .ok ds →
      ds.length = names.length ∧ ∀ d ∈ ds, d.sampleData.length ≤ 5 := by
  intro names
  induction names with
  | nil =>
    intro ds h
    simp only [buildTableDetails, Except.ok.injEq] at h
    rw [← h]
    simp
  | cons n rest ih =>
    intro ds h
    simp only [buildTableDetails] at h
    cases hsc : getTableSchema db n with
    | error e => rw [hsc] at h; simp at h
    | ok schema =>
      rw [hsc] at h
      cases hdt : getTableData db n 5 with
      | error e => rw [hdt] at h; simp at h
      | ok sample =>
        rw [hdt] at h
        cases hbt : buildTableDetails db rest with
        | error e => rw [hbt] at h; simp at h
        | ok tail =>
          rw [hbt] at h
          simp only [Except.ok.injEq] at h
          obtain ⟨hlen, hall⟩ := ih tail hbt
          rw [← h]
          refine ⟨by simp [hlen], ?_⟩
          intro d hd
          rcases List.mem_cons.mp hd with hfst | hd'
          · rw [hfst]
            exact getTableData_length_le db n 5 sample hdt
          · exact hall d hd'

/-- Claim C9: the database-description aggregate samples at most three
tables with at most five rows each, returns the two-entry sample list
when the table list is empty, returns the two-entry error placeholder
instead of propagating a failure, and it is the only operation that
substitutes data: every other operation propagates the failure. -/
theorem getAllItemsFromPublicSchema_spec (env : DbEnvConfig) (db : Db) :
    (db.connOk = false →
      getAllItemsFromPublicSchema env db = .ok (.samples (errorSamples db.errMsg)) ∧
      (errorSamples db.errMsg).length = 2 ∧
      getAllItemsQ db = .error db.errMsg ∧
      countItemsByKindQ db = .error db.errMsg ∧
      countItemsByCategoryQ db = .error db.errMsg ∧
      getAllProfilesQ db = .error db.errMsg ∧
      getItemById_pg db 1 = .error db.errMsg ∧
      getTableData db "items" 5 = .error db.errMsg ∧
      getTables db = .error db.errMsg ∧
      getTableSchema db "items" = .error db.errMsg) ∧
    (db.connOk = true → db.publicTableNames = [] →
      getAllItemsFromPublicSchema env db = .ok (.samples defaultSamples) ∧
      defaultSamples.length = 2) ∧
    (∀ info : DatabaseInfo, getAllItemsFromPublicSchema env db = .ok (.info info) →
      info.tableDetails.length ≤ 3 ∧ ∀ d ∈ info.tableDetails, d.sampleData.length ≤ 5) := by
  refine ⟨?_, ?_, ?_⟩
  · intro hdb
    have hdb' : ¬ db.connOk = true := by simp [hdb]
    refine ⟨?_, rfl, ?_, ?_, ?_, ?_, ?_, ?_, ?_, ?_⟩ <;>
      simp [getAllItemsFromPublicSchema, getAllItemsQ, countItemsByKindQ,
        countItemsByCategoryQ, getAllProfilesQ, getItemById_pg, getTableData,
        getTables, getTableSchema, hdb']
  · intro hok hempty
    refine ⟨?_, rfl⟩
    simp [getAllItemsFromPublicSchema, getTables, hok, hempty]
  · intro info h
    unfold getAllItemsFromPublicSchema at h
    cases hgt : getTables db with
    | error e => rw [hgt] at h; simp at h
    | ok tables =>
      rw [hgt] at h
      dsimp only at h
      by_cases hemp : tables = []
      · rw [if_pos hemp] at h; simp at h
      · rw [if_neg hemp] at h
        cases hbt : buildTableDetails db (tables.take 3) with
        | error e => rw [hbt] at h; simp at h
        | ok details =>
          rw [hbt] at h
          simp only [Except.ok.injEq, PublicSchemaResult.info.injEq] at h
          obtain ⟨hlen, hall⟩ := buildTableDetails_ok db (tables.take 3) details hbt
          have hdet : info.tableDetails = details := by rw [← h]
          rw [hdet]
          refine ⟨?_, hall⟩
          rw [hlen, List.length_take]
          exact min_le_left _ _

/-- Witness for C9: the placeholder and sampling facts evaluated on the
three demo databases. -/
theorem getAllItemsFromPublicSchema_spec_witness :
    getAllItemsFromPublicSchema demoEnv demoDbBad =
      .ok (.samples (errorSamples demoDbBad.errMsg)) ∧
    getAllItemsFromPublicSchema demoEnv demoDbEmpty = .ok (.samples defaultSamples) ∧
    demoInfo.tableDetails.length ≤ 3 ∧
    (∀ d ∈ demoInfo.tableDetails, d.sampleData.length ≤ 5) := by
  have hbad := (getAllItemsFromPublicSchema_spec demoEnv demoDbBad).1 rfl
  have hemp := (getAllItemsFromPublicSchema_spec demoEnv demoDbEmpty).2.1 rfl rfl
  have hinfo := (getAllItemsFromPublicSchema_spec demoEnv demoDbGood).2.2 demoInfo (by rfl)
  exact ⟨hbad.1, hemp.1, hinfo.1, hinfo.2⟩
